import Mathlib

/-!
Verification of the Doctor-Support ingestion/retrieval pipeline
(`vector_store.py`, `retriever.py`, `manage_indexes.py`).

Python strings are embedded as `List Char`; Python scalar metadata values as
the inductive `PyVal`; dicts as association lists (Python dicts are
insertion-ordered, and every dict operation used by the source preserves that
order). Floating-point distances are idealized as rationals: the source only
subtracts distances from 1.0 and never accumulates rounding.
-/

set_option maxHeartbeats 1000000

namespace DoctorSupport

/-- A Python scalar value as it can occur in a metadata dict: `None`, a
string, an int, or a bool.  Python equality across these kinds never makes a
non-string equal to a string, so `v != ""` in the source is `pyEqEmptyStr`
below. -/
inductive PyVal where
  | none : PyVal
  | str : List Char → PyVal
  | int : Int → PyVal
  | bool : Bool → PyVal
deriving DecidableEq, Repr

/-- Python `v == ""` for a scalar `v`: true exactly for the empty string
(`0 == ""`, `False == ""` and `None == ""` are all false in Python). -/
def pyEqEmptyStr : PyVal → Bool
  | .str s => s.isEmpty
  | _ => false

/-- Function `clean_metadata` (vector_store.py lines 50-52): the dict comprehension
keeping entries with `v is not None and v != ""`, in input order. -/
def clean_metadata (metadata : List (List Char × PyVal)) : List (List Char × PyVal) :=
  metadata.filter (fun kv => !(kv.2 == PyVal.none) && !(pyEqEmptyStr kv.2))

/-- Python `str.strip()`: drop leading and trailing whitespace. -/
def pyStrip (s : List Char) : List Char :=
  ((s.dropWhile Char.isWhitespace).reverse.dropWhile Char.isWhitespace).reverse

/-- Python `str.title()` on the ASCII field keys used by the source: a
letter is uppercased when the previous character is not a letter, lowercased
otherwise.  The `prev` flag says whether the previous character was a
letter. -/
def pyTitle : List Char → Bool → List Char
  | [], _ => []
  | c :: cs, prev => (if prev then c.toLower else c.toUpper) :: pyTitle cs c.isAlpha

/-- The label of one rendered line: `k.replace('_',' ').title()`
(vector_store.py line 30). -/
def fieldLabel (k : List Char) : List Char :=
  pyTitle (k.map (fun c => if c = '_' then ' ' else c)) false

/-- One rendered line `f"{k.replace('_',' ').title()}: {v}"`. -/
def fieldLine (k v : List Char) : List Char :=
  fieldLabel k ++ (": ".data) ++ v

/-- An input product record (`doc` in vector_store.py): the nine text fields
`build_text_for_embedding` reads, plus `id`.  A missing key is `none`; a key
present with value `""` is `some []` (both are falsy in `if v:`). -/
structure Record where
  product_name : Option (List Char) := Option.none
  brand_name : Option (List Char) := Option.none
  therapeutic_class : Option (List Char) := Option.none
  strength : Option (List Char) := Option.none
  dosage_form : Option (List Char) := Option.none
  pack_size : Option (List Char) := Option.none
  composition : Option (List Char) := Option.none
  indication_summary : Option (List Char) := Option.none
  extracted_text : Option (List Char) := Option.none
  id : Option (List Char) := Option.none
deriving DecidableEq, Repr

/-- Python truthiness of `doc.get(k)`: false for a missing key (`None`) and
for an empty string, true otherwise. -/
def truthy : Option (List Char) → Bool
  | Option.none => false
  | Option.some s => !s.isEmpty

/-- The list `fields_in_order` paired with the record's values, in the fixed order of
vector_store.py lines 26-30. -/
def orderedFieldPairs (doc : Record) : List (List Char × Option (List Char)) :=
  [("product_name".data, doc.product_name),
   ("brand_name".data, doc.brand_name),
   ("therapeutic_class".data, doc.therapeutic_class),
   ("strength".data, doc.strength),
   ("dosage_form".data, doc.dosage_form),
   ("pack_size".data, doc.pack_size),
   ("composition".data, doc.composition),
   ("indication_summary".data, doc.indication_summary),
   ("extracted_text".data, doc.extracted_text)]

/-- None of the nine listed fields is present and truthy. -/
def noListedFieldTruthy (doc : Record) : Bool :=
  (orderedFieldPairs doc).all (fun kv => !truthy kv.2)

/-- Function `build_text_for_embedding` (vector_store.py lines 21-41): collect a line
for each truthy field in order; fall back to `doc.get("id", "")` when no
field produced a line; join with newlines, strip, truncate to 6000
characters. -/
def build_text_for_embedding (doc : Record) : List Char :=
  let parts := (orderedFieldPairs doc).filterMap
    (fun kv => if truthy kv.2 then Option.some (fieldLine kv.1 (kv.2.getD [])) else Option.none)
  let parts2 := if parts.isEmpty then [doc.id.getD []] else parts
  (pyStrip (List.intercalate ['\n'] parts2)).take 6000

/-- The text `create_embedding` (vector_store.py lines 43-48) actually sends
to the provider: `if not text: text = " "` — only the exactly-empty string is
replaced, and nothing else is rewritten. -/
def create_embedding_sent (text : List Char) : List Char :=
  if text.isEmpty then [' '] else text

/-- The text `get_embedding` (retriever.py lines 16-22) actually sends to the
provider: `text.replace("\n", " ")` — a character-wise rewrite of every
newline to a space, with no empty-input placeholder. -/
def get_embedding_sent (text : List Char) : List Char :=
  text.map (fun c => if c = '\n' then ' ' else c)

/-- Empty or whitespace-equivalent text (the claim's precondition wording):
every character is whitespace, which includes the empty string. -/
def whitespaceEquivalent (s : List Char) : Bool :=
  s.all Char.isWhitespace

/-- The per-function property asserted by the spec for the embedding client:
whitespace-equivalent input becomes the single-space placeholder, and the
sent text carries no newline. -/
def EmbedPrepSpec (prep : List Char → List Char) : Prop :=
  ∀ t : List Char, (whitespaceEquivalent t = true → prep t = [' ']) ∧ '\n' ∉ prep t

/-- One accumulated tuple of `store_embeddings` (vector_store.py lines
101-141): id, embedding vector, sanitized metadata, document text. -/
structure StoredItem where
  id : List Char
  embedding : List ℚ
  metadata : List (List Char × PyVal)
  document : List Char
deriving DecidableEq, Repr

/-- Constant `batch_size = 100` (vector_store.py line 150). -/
def batch_size : Nat := 100

/-- The write batches of `store_embeddings` (vector_store.py lines 149-168):
`for i in range(0, len(ids), batch_size)` slices `[i : i + batch_size]` of the
accumulated tuples, so the batches are successive `take`/`drop` slices in
input order, and an empty input produces no batch. -/
def storeBatches (l : List StoredItem) : List (List StoredItem) :=
  match l with
  | [] => []
  | x :: xs => ((x :: xs).take batch_size) :: storeBatches ((x :: xs).drop batch_size)
termination_by l.length
decreasing_by simp [batch_size, List.length_drop]; omega

/-- A concrete input of 250 records for the batching claim. -/
def items250 : List StoredItem :=
  (List.range 250).map (fun _ => ⟨[], [], [], []⟩)

/-- The admin store, abstracted to what `manage_indexes.py` observes: the
named collections with their item counts. -/
abbrev CollectionStore : Type := List (List Char × Nat)

/-- Outcome of one `delete_collection` call: the store afterwards, and
whether the backend delete operation (`chroma_client.delete_collection`) was
invoked at all. -/
structure DeleteResult where
  store : CollectionStore
  deleteInvoked : Bool

/-- Function `delete_collection` (manage_indexes.py lines 71-82): without `confirm`
it only prints the confirmation instructions and returns; with `confirm` it
calls `chroma_client.delete_collection(name=collection_name)` (when the name
is absent the backend raises, the error is caught and printed, and the store
is unchanged — which the filter also models). -/
def delete_collection (store : CollectionStore) (collection_name : List Char)
    (confirm : Bool) : DeleteResult :=
  if !confirm then
    ⟨store, false⟩
  else
    ⟨store.filter (fun c => !(c.1 == collection_name)), true⟩

/-- A retrieval result chunk (retriever.py lines 70-73): text and
similarity. -/
structure Chunk where
  text : List Char
  similarity : ℚ
deriving DecidableEq, Repr

/-- The metadata key used by the retrieval text fallback. -/
def textKey : List Char := "text".data

/-- The chunk-shaping loop of `retrieve_similar_chunks` (retriever.py lines
60-73), phrased structurally: at loop index `i` the source reads
`distances[i]` (else 1.0 when `i` is out of range) and `metadatas[i]` (the
`metadatas and i < len(metadatas)` guard is equivalent to `i <
len(metadatas)`), which here are the heads of the remaining lists; both
lists lose their head (`drop 1`) at each step, keeping the index
correspondence. -/
def shapeChunks : List (List Char) → List (List (List Char × List Char)) → List ℚ → List Chunk
  | [], _, _ => []
  | doc :: docs, metadatas, distances =>
    let distance : ℚ := match distances with
      | [] => 1
      | d :: _ => d
    let similarity : ℚ := 1 - distance
    let text : List Char := if doc.isEmpty then
        match metadatas with
        | [] => doc
        | mv :: _ => (mv.lookup textKey).getD []
      else doc
    ⟨text, similarity⟩ :: shapeChunks docs (metadatas.drop 1) (distances.drop 1)

/-- What `collection.query` returns (retriever.py lines 45-49): nested
lists, one inner list per query embedding. -/
structure ChromaQueryResult where
  documents : List (List (List Char))
  metadatas : List (List (List (List Char × List Char)))
  distances : List (List ℚ)

/-- Result formatting of `retrieve_similar_chunks` (retriever.py lines
52-75): unwrap the first query's lists (with the source's fallbacks
`[{}] * len(documents)` and `[0.0] * len(documents)` when a key holds an
empty list) and run the shaping loop; no documents means no chunks. -/
def formatChunks (res : ChromaQueryResult) : List Chunk :=
  if res.documents.isEmpty then []
  else
    let documents := res.documents.headD []
    let metadatas := if res.metadatas.isEmpty then
        List.replicate documents.length [] else res.metadatas.headD []
    let distances := if res.distances.isEmpty then
        List.replicate documents.length (0 : ℚ) else res.distances.headD []
    shapeChunks documents metadatas distances

/-- The Python exception the retriever raises itself. -/
inductive PyError where
  | valueError (msg : List Char)
deriving DecidableEq, Repr

/-- An apostrophe (the message in the source quotes the collection name). -/
def quoteChar : Char := Char.ofNat 39

/-- The literal tail of the not-found message (retriever.py line 42),
after the quoted collection name and before the backend error text. -/
def notFoundTail : List Char :=
  " not found. Please run vector_store.py first to create the collection. Error: ".data

/-- The message of the error raised at retriever.py line 42 for collection
name `name` when the backend lookup failed with message `eMsg`. -/
def notFoundMessage (name eMsg : List Char) : List Char :=
  "Collection ".data ++ [quoteChar] ++ name ++ [quoteChar] ++ notFoundTail ++ eMsg

/-- The advice part of the message. -/
def ingestionAdvice : List Char := "Please run vector_store.py first".data

/-- Outcome of one `retrieve_similar_chunks` call: the returned chunks or
the raised error, and whether `collection.query` was invoked against the
store. -/
structure RetrieveOutcome where
  result : Except PyError (List Chunk)
  queryIssued : Bool

/-- Function `retrieve_similar_chunks` (retriever.py lines 24-75) after the query
embedding is computed: the store maps each existing collection name to the
query result it would return; a failing `get_collection` (name absent) is
caught and re-raised as the not-found `ValueError` before any
`collection.query` call. -/
def retrieve_similar_chunks (store : List (List Char × ChromaQueryResult))
    (collection_name : List Char) (eMsg : List Char) : RetrieveOutcome :=
  match store.lookup collection_name with
  | Option.none =>
    ⟨Except.error (PyError.valueError (notFoundMessage collection_name eMsg)), false⟩
  | Option.some res =>
    ⟨Except.ok (formatChunks res), true⟩

/-- Substring test helpers for the message claims. -/
def startsWithChars : List Char → List Char → Bool
  | _, [] => true
  | [], _ :: _ => false
  | c :: cs, p :: ps => c == p && startsWithChars cs ps

/-- Whether `pat` occurs as a contiguous substring of `s`. -/
def hasSub (pat : List Char) : List Char → Bool
  | [] => startsWithChars [] pat
  | c :: cs => startsWithChars (c :: cs) pat || hasSub pat cs

/-- Modelled from the spec: §7 of the spec defines its `NotFoundError` kind
as a failure reporting that the requested collection or item is absent, and
notes the source realizes it by catching broad backend errors and raising an
error whose message says the target was not found.  An error is
NotFoundError-class when its message contains "not found". -/
def NotFoundErrorClass : PyError → Bool
  | .valueError msg => hasSub ("not found".data) msg

/-- A record whose nine listed fields are all absent and whose id carries
surrounding whitespace. -/
def r4 : Record := { id := Option.some [' ', 'x', ' '] }

/-! Helper lemmas. -/

/-- An entry survives `clean_metadata` exactly when its value is neither
`None` nor the empty string. -/
theorem keep_iff (v : PyVal) :
    ((!(v == PyVal.none) && !(pyEqEmptyStr v)) = true) ↔
      (v ≠ PyVal.none ∧ v ≠ PyVal.str []) := by
  cases v <;> simp [pyEqEmptyStr, List.isEmpty_iff]

theorem intercalate_singleton (x : List Char) : List.intercalate ['\n'] [x] = x := by
  simp [List.intercalate, List.intersperse]

/-! Claim theorems. -/

/-- C1 counterexample: the ingestion-side embedding function does not
replace the whitespace-equivalent text consisting of one newline by the
single-space placeholder, nor does it remove that newline; and the
retrieval-side embedding function applies no single-space placeholder to the
empty text. -/
theorem C1_counterexample :
    (¬ EmbedPrepSpec create_embedding_sent) ∧ get_embedding_sent [] ≠ [' '] := by
  refine ⟨fun h => ?_, by decide⟩
  exact (h ['\n']).2 (by decide)

/-- C1, amended: before the provider call, the ingestion-side function
substitutes the single-space placeholder exactly for the empty text and
passes every non-empty text (including whitespace-only text and its
newlines) through unchanged, so its output is never empty; the
retrieval-side function replaces every newline by a space, preserving length
and keeping every non-newline character, and applies no placeholder to empty
input. -/
theorem C1_amended (t : List Char) :
    create_embedding_sent t ≠ [] ∧
    (t = [] → create_embedding_sent t = [' ']) ∧
    (t ≠ [] → create_embedding_sent t = t) ∧
    '\n' ∉ get_embedding_sent t ∧
    (get_embedding_sent t).length = t.length ∧
    (∀ c ∈ t, c ≠ '\n' → c ∈ get_embedding_sent t) := by
  refine ⟨?_, ?_, ?_, ?_, ?_, ?_⟩
  · cases t <;> simp [create_embedding_sent]
  · intro h; subst h; rfl
  · intro h; cases t with
    | nil => exact absurd rfl h
    | cons c cs => simp [create_embedding_sent]
  · intro hmem
    obtain ⟨c, _, he⟩ := List.mem_map.mp hmem
    by_cases hc : c = '\n'
    · rw [if_pos hc] at he
      exact absurd he (by decide)
    · rw [if_neg hc] at he
      exact hc he
  · exact List.length_map _ _
  · intro c hc hne
    exact List.mem_map.mpr ⟨c, hc, if_neg hne⟩

/-- C1 witness: at the empty text the ingestion-side function sends the
placeholder, and at the one-newline text the retrieval-side output carries
no newline. -/
theorem C1_amended_witness :
    create_embedding_sent [] = [' '] ∧ '\n' ∉ get_embedding_sent ['\n'] :=
  ⟨(C1_amended []).2.1 rfl, (C1_amended ['\n']).2.2.2.1⟩

/-- C6: `delete_collection` without `confirm` leaves the store untouched and
never invokes the backend delete; with `confirm` it invokes the backend
delete for that name and the named collection is gone from the resulting
store. -/
theorem C6_delete_gate (store : CollectionStore) (name : List Char) :
    (delete_collection store name false).store = store ∧
    (delete_collection store name false).deleteInvoked = false ∧
    (delete_collection store name true).deleteInvoked = true ∧
    ∀ c ∈ (delete_collection store name true).store, c.1 ≠ name := by
  refine ⟨rfl, rfl, rfl, ?_⟩
  intro c hc
  simp [delete_collection, List.mem_filter] at hc
  exact hc.2

/-- C6 witness: the gate evaluated on a one-collection store. -/
theorem C6_delete_gate_witness :
    (delete_collection [(['a'], 5)] ['a'] false).store = [(['a'], 5)] ∧
    (delete_collection [(['a'], 5)] ['a'] true).deleteInvoked = true :=
  ⟨(C6_delete_gate [(['a'], 5)] ['a']).1, (C6_delete_gate [(['a'], 5)] ['a']).2.2.1⟩

/-- C7: no entry of `clean_metadata`'s output has value `None` or the empty
string. -/
theorem C7_no_null_or_empty (m : List (List Char × PyVal)) (kv : List Char × PyVal)
    (h : kv ∈ clean_metadata m) :
    kv.2 ≠ PyVal.none ∧ kv.2 ≠ PyVal.str [] := by
  have h2 := (List.mem_filter.mp h).2
  exact (keep_iff kv.2).mp h2

/-- C7 witness: the surviving entry of a concrete metadata dict. -/
theorem C7_no_null_or_empty_witness :
    (['a'], PyVal.int 0).2 ≠ PyVal.none ∧ (['a'], PyVal.int 0).2 ≠ PyVal.str [] :=
  C7_no_null_or_empty [(['a'], PyVal.int 0), (['b'], PyVal.none), (['c'], PyVal.str [])]
    (['a'], PyVal.int 0) (by decide)

/-- C9: `clean_metadata` is idempotent. -/
theorem C9_idempotent (m : List (List Char × PyVal)) :
    clean_metadata (clean_metadata m) = clean_metadata m := by
  simp [clean_metadata, List.filter_filter]

/-- C9 witness: idempotence evaluated on a concrete metadata dict. -/
theorem C9_idempotent_witness :
    clean_metadata (clean_metadata [(['a'], PyVal.none), (['b'], PyVal.int 0)])
      = clean_metadata [(['a'], PyVal.none), (['b'], PyVal.int 0)] :=
  C9_idempotent [(['a'], PyVal.none), (['b'], PyVal.int 0)]

/-- C10: `clean_metadata` keeps exactly the entries whose value is neither
`None` nor the empty string — in particular entries with falsy scalar values
such as `0` or `False` survive with key and value unchanged — and its output
is a sublist of the input (order and entries untouched). -/
theorem C10_keeps_other_falsy (m : List (List Char × PyVal)) (kv : List Char × PyVal) :
    (kv ∈ clean_metadata m ↔
      kv ∈ m ∧ kv.2 ≠ PyVal.none ∧ kv.2 ≠ PyVal.str []) ∧
    List.Sublist (clean_metadata m) m := by
  refine ⟨?_, List.filter_sublist _⟩
  rw [clean_metadata, List.mem_filter, keep_iff]

/-- C10 witness: an entry with the falsy value `False` survives sanitizing
on a concrete input. -/
theorem C10_keeps_other_falsy_witness :
    ((['b'], PyVal.bool false) ∈ clean_metadata [(['b'], PyVal.bool false)] ↔
      (['b'], PyVal.bool false) ∈ [(['b'], PyVal.bool false)] ∧
      (['b'], PyVal.bool false).2 ≠ PyVal.none ∧
      (['b'], PyVal.bool false).2 ≠ PyVal.str []) ∧
    List.Sublist (clean_metadata [(['b'], PyVal.bool false)]) [(['b'], PyVal.bool false)] :=
  C10_keeps_other_falsy [(['b'], PyVal.bool false)] (['b'], PyVal.bool false)

/-- C4 counterexample: on the record `r4`, whose nine listed fields are all
absent and whose id is the string with characters space-x-space,
`build_text_for_embedding` does not return the id value (it strips the
surrounding whitespace). -/
theorem C4_counterexample :
    noListedFieldTruthy r4 = true ∧ r4.id = Option.some [' ', 'x', ' '] ∧
    build_text_for_embedding r4 ≠ [' ', 'x', ' '] := by decide

/-- C4, amended: when none of the nine listed fields is present and truthy,
`build_text_for_embedding` returns the record's id value stripped of leading
and trailing whitespace and truncated to 6000 characters (the empty string
when the id attribute is absent). -/
theorem C4_amended (r : Record) (h : noListedFieldTruthy r = true) :
    build_text_for_embedding r = (pyStrip (r.id.getD [])).take 6000 := by
  have hparts : (orderedFieldPairs r).filterMap
      (fun kv => if truthy kv.2 then Option.some (fieldLine kv.1 (kv.2.getD []))
        else Option.none) = [] := by
    rw [List.filterMap_eq_nil_iff]
    intro kv hkv
    have hf := List.all_eq_true.mp h kv hkv
    rw [Bool.not_eq_true'] at hf
    rw [if_neg (by simp [hf])]
  unfold build_text_for_embedding
  rw [hparts]
  simp [intercalate_singleton]

/-- C4 witness: the amended statement evaluated on the concrete record
`r4`. -/
theorem C4_amended_witness :
    build_text_for_embedding r4 = (pyStrip (r4.id.getD [])).take 6000 :=
  C4_amended r4 (by decide)

/-- C8: `build_text_for_embedding` output length is at most 6000. -/
theorem C8_length_cap (doc : Record) :
    (build_text_for_embedding doc).length ≤ 6000 := by
  unfold build_text_for_embedding
  exact List.length_take_le _ _

/-- C8 witness: the cap evaluated on the concrete record `r4`. -/
theorem C8_length_cap_witness : (build_text_for_embedding r4).length ≤ 6000 :=
  C8_length_cap r4

/-- Unfolding of `storeBatches` on a non-empty input. -/
theorem storeBatches_cons (l : List StoredItem) (h : l ≠ []) :
    storeBatches l = l.take batch_size :: storeBatches (l.drop batch_size) := by
  cases l with
  | nil => exact absurd rfl h
  | cons x xs => simp only [storeBatches]

theorem storeBatches_nil : storeBatches [] = [] := by simp [storeBatches]

/-- Concatenating the write batches restores the accumulated tuples in input
order: batching neither reorders nor drops records. -/
theorem storeBatches_flatten (l : List StoredItem) : (storeBatches l).flatten = l := by
  induction l using storeBatches.induct with
  | case1 => simp [storeBatches]
  | case2 x xs ih =>
    rw [storeBatches_cons _ (by simp), List.flatten_cons, ih, List.take_append_drop]

/-- Every write batch is non-empty and holds at most `batch_size` tuples. -/
theorem storeBatches_mem (l : List StoredItem) (b : List StoredItem)
    (hb : b ∈ storeBatches l) : b ≠ [] ∧ b.length ≤ batch_size := by
  induction l using storeBatches.induct with
  | case1 => simp [storeBatches] at hb
  | case2 x xs ih =>
    rw [storeBatches_cons _ (by simp)] at hb
    rcases List.mem_cons.mp hb with he | hm
    · subst he
      refine ⟨?_, List.length_take_le _ _⟩
      simp [batch_size]
    · exact ih hm

/-- C2: ingestion writes the accumulated tuples in batches of at most 100
whose concatenation is the input sequence (so batch boundaries never split
the relative ordering), and 250 records produce exactly the three batches of
sizes 100, 100 and 50. -/
theorem C2_batching (l : List StoredItem) :
    (storeBatches l).flatten = l ∧
    (∀ b ∈ storeBatches l, b ≠ [] ∧ b.length ≤ batch_size) ∧
    (l.length = 250 → (storeBatches l).map List.length = [100, 100, 50]) := by
  refine ⟨storeBatches_flatten l, fun b hb => storeBatches_mem l b hb, ?_⟩
  intro h250
  have h1 : l ≠ [] := by intro e; rw [e] at h250; simp at h250
  have e1 : (l.drop batch_size).length = 150 := by
    simp only [List.length_drop, batch_size]; omega
  have h2 : l.drop batch_size ≠ [] := by intro e; rw [e] at e1; simp at e1
  have e2 : ((l.drop batch_size).drop batch_size).length = 50 := by
    simp only [List.length_drop, batch_size]; omega
  have h3 : (l.drop batch_size).drop batch_size ≠ [] := by
    intro e; rw [e] at e2; simp at e2
  have e3 : (((l.drop batch_size).drop batch_size).drop batch_size).length = 0 := by
    simp only [List.length_drop, batch_size]; omega
  have h4 : ((l.drop batch_size).drop batch_size).drop batch_size = [] :=
    List.length_eq_zero.mp e3
  rw [storeBatches_cons _ h1, storeBatches_cons _ h2, storeBatches_cons _ h3, h4,
    storeBatches_nil]
  simp only [List.map_cons, List.map_nil, List.length_take]
  rw [h250, e1, e2]
  decide

/-- C2 witness: the batch sizes for a concrete 250-record input. -/
theorem C2_batching_witness :
    (storeBatches items250).map List.length = [100, 100, 50] :=
  (C2_batching items250).2.2 (by simp only [items250, List.length_map, List.length_range])

/-- The shaping loop emits one chunk per returned document. -/
theorem shapeChunks_length (docs : List (List Char))
    (metas : List (List (List Char × List Char))) (dists : List ℚ) :
    (shapeChunks docs metas dists).length = docs.length := by
  induction docs generalizing metas dists with
  | nil => rfl
  | cons d ds ih => simp [shapeChunks, ih]

/-- When the store returns one distance per document, the emitted
similarities are exactly the distances mapped through `1 - d`, in the same
order. -/
theorem shapeChunks_map_similarity (docs : List (List Char))
    (metas : List (List (List Char × List Char))) (dists : List ℚ)
    (h : dists.length = docs.length) :
    (shapeChunks docs metas dists).map Chunk.similarity
      = dists.map (fun d => 1 - d) := by
  induction docs generalizing metas dists with
  | nil =>
    have : dists = [] := List.length_eq_zero.mp h
    subst this
    rfl
  | cons d ds ih =>
    cases dists with
    | nil => simp at h
    | cons q qs =>
      simp only [shapeChunks, List.map_cons, List.drop_one, List.tail_cons]
      rw [ih metas.tail qs (by simpa using h)]

/-- C5: each returned chunk's similarity is `1 - distance`, in the store's
ranked order (one chunk per document, positionally aligned with the distance
list); in particular distances 0, 1/10, 1/2 yield similarities 1, 9/10, 1/2
in that order. -/
theorem C5_similarity (documents : List (List Char))
    (metadatas : List (List (List Char × List Char))) (distances : List ℚ)
    (h : distances.length = documents.length) :
    (shapeChunks documents metadatas distances).length = documents.length ∧
    (shapeChunks documents metadatas distances).map Chunk.similarity
      = distances.map (fun d => 1 - d) ∧
    (distances = [0, 1/10, 1/2] →
      (shapeChunks documents metadatas distances).map Chunk.similarity
        = [1, 9/10, 1/2]) := by
  refine ⟨shapeChunks_length _ _ _, shapeChunks_map_similarity _ _ _ h, ?_⟩
  intro hd
  rw [shapeChunks_map_similarity _ _ _ h, hd]
  norm_num

/-- C5 witness: the similarities for a concrete three-document query result
with distances 0, 1/10, 1/2. -/
theorem C5_similarity_witness :
    (shapeChunks [['a'], ['b'], ['c']] [] [0, 1/10, 1/2]).map Chunk.similarity
      = [1, 9/10, 1/2] :=
  (C5_similarity [['a'], ['b'], ['c']] [] [0, 1/10, 1/2] rfl).2.2 rfl

/-- A prefix of `s` is still a prefix after appending on the right. -/
theorem startsWithChars_append_right (s pat post : List Char)
    (h : startsWithChars s pat = true) : startsWithChars (s ++ post) pat = true := by
  induction s generalizing pat with
  | nil =>
    cases pat with
    | nil => cases post <;> simp [startsWithChars]
    | cons p ps => simp [startsWithChars] at h
  | cons c cs ih =>
    cases pat with
    | nil => simp [startsWithChars]
    | cons p ps =>
      simp only [startsWithChars, Bool.and_eq_true] at h ⊢
      exact ⟨h.1, ih ps h.2⟩

theorem hasSub_nil_pat (s : List Char) : hasSub [] s = true := by
  cases s <;> simp [hasSub, startsWithChars]

/-- A substring of `s` is a substring of `s ++ post`. -/
theorem hasSub_append_right (pat s post : List Char) (h : hasSub pat s = true) :
    hasSub pat (s ++ post) = true := by
  induction s with
  | nil =>
    cases pat with
    | nil => exact hasSub_nil_pat post
    | cons p ps => simp [hasSub, startsWithChars] at h
  | cons c cs ih =>
    simp only [hasSub, Bool.or_eq_true] at h
    rcases h with h | h
    · simp only [List.cons_append, hasSub, Bool.or_eq_true]
      exact Or.inl (startsWithChars_append_right _ _ _ h)
    · simp only [List.cons_append, hasSub, Bool.or_eq_true]
      exact Or.inr (ih h)

/-- A substring of `s` is a substring of `pre ++ s`. -/
theorem hasSub_append_left (pat pre s : List Char) (h : hasSub pat s = true) :
    hasSub pat (pre ++ s) = true := by
  induction pre with
  | nil => simpa using h
  | cons c cs ih =>
    simp only [List.cons_append, hasSub, Bool.or_eq_true]
    exact Or.inr ih

/-- C3: when the target collection is absent from the store, retrieval
returns the raised error — which is NotFoundError-class in the spec's §7
taxonomy, names the missing collection, and advises running the ingestion
script first — and no query is issued against the store. -/
theorem C3_not_found (store : List (List Char × ChromaQueryResult))
    (collection_name eMsg : List Char)
    (h : store.lookup collection_name = Option.none) :
    (retrieve_similar_chunks store collection_name eMsg).result
      = Except.error (PyError.valueError (notFoundMessage collection_name eMsg)) ∧
    NotFoundErrorClass
      (PyError.valueError (notFoundMessage collection_name eMsg)) = true ∧
    (∃ pre post, notFoundMessage collection_name eMsg = pre ++ collection_name ++ post) ∧
    (∃ pre post, notFoundMessage collection_name eMsg = pre ++ ingestionAdvice ++ post) ∧
    (retrieve_similar_chunks store collection_name eMsg).queryIssued = false := by
  refine ⟨?_, ?_, ?_, ?_, ?_⟩
  · simp [retrieve_similar_chunks, h]
  · show hasSub ("not found".data) (notFoundMessage collection_name eMsg) = true
    unfold notFoundMessage
    apply hasSub_append_right
    apply hasSub_append_left
    decide
  · exact ⟨"Collection ".data ++ [quoteChar], [quoteChar] ++ notFoundTail ++ eMsg,
      by simp [notFoundMessage, List.append_assoc]⟩
  · have hT : notFoundTail = " not found. ".data ++ ingestionAdvice
        ++ " to create the collection. Error: ".data := by decide
    exact ⟨"Collection ".data ++ [quoteChar] ++ collection_name ++ [quoteChar]
        ++ " not found. ".data,
      " to create the collection. Error: ".data ++ eMsg,
      by rw [notFoundMessage, hT]; simp [List.append_assoc]⟩
  · simp [retrieve_similar_chunks, h]

/-- C3 witness: on an empty store no query is issued for a concrete
collection name. -/
theorem C3_not_found_witness :
    (retrieve_similar_chunks [] ['c'] []).queryIssued = false :=
  (C3_not_found [] ['c'] [] rfl).2.2.2.2

end DoctorSupport
